import Mathlib

/-!
# Verification of the go-xlog handler pipeline

This file gives a shallow embedding of the `go.innotegrity.dev/xlog` handler
(sink) pipeline — the level gates, the fan-out composer, and the SentinelOne
HEC batching forwarder — and proves the spec's testable properties about it.

Conventions of the embedding:
* `slog.Level` is an `Int` (in Go it is an `int` with Debug = -4, Info = 0,
  Warn = 4, Error = 8).
* A `*slog.LevelVar` is a mutable cell shared by reference; we model the heap
  of such cells as a function `Heap : Nat → Int` and a handler stores the
  cell index (`levelRef`).  `slog.LevelVar.Set` is a pointwise heap update.
* Byte buffers are `List Nat` (one `Nat` per byte); `bytes.Buffer.Len` is
  `List.length`, `Write` is append, `Reset` empties the list.
* Fallible Go calls return `Option GoError` where `none` is the `nil` error.
* The network outcome of one HTTP delivery attempt is an oracle parameter
  `attempt : Option GoError` (the error produced inside `send` before the
  pluggable error handler sees it, covering compression, request
  construction, transport, and status >= 400 failures).
-/

/-- Heap of `slog.LevelVar` cells: cell index to current level value. -/
def Heap : Type := Nat → Int

/-- `slog.LevelVar.Set` on cell `i`: update the heap at one cell. -/
def heapSet (heap : Heap) (i : Nat) (v : Int) : Heap :=
  fun j => if j = i then v else heap j

/-- A resolved `slog.Attr` (key/value pair; nested groups are irrelevant to
the claims verified here, so values are plain strings). -/
structure Attr where
  key : String
  value : String
deriving DecidableEq, Repr

/-- A `slog.Record`: timestamp, level, message and attributes. -/
structure Record where
  time : Int
  level : Int
  message : String
  attrs : List Attr
deriving DecidableEq, Repr

/-- `slog.Record.Clone`: produces an independent copy of the record.  In the
value semantics of the embedding a copy is the record itself. -/
def Record.clone (r : Record) : Record :=
  { time := r.time, level := r.level, message := r.message, attrs := r.attrs }

/-- A Go `error` value (its message); `Option GoError` with `none` for `nil`
is the result type of fallible calls. -/
def GoError : Type := String

instance : DecidableEq GoError :=
  inferInstanceAs (DecidableEq String)

instance : Repr GoError :=
  inferInstanceAs (Repr String)

/-- The shared level-gate options every leaf handler carries: a pointer to the
minimum-level `*slog.LevelVar` and an optional pointer to the maximum-level
`*slog.LevelVar` (`none` models a `nil` pointer). -/
structure LeafOptions where
  levelRef : Nat
  maxLevelRef : Option Nat
deriving DecidableEq, Repr

/-- `SentinelOneHECHandlerOptions` (the fields the verified claims depend on:
`BufferSize`, `DisableAsync`, `Level`, `MaxLevel`).  The remaining fields
(token, hostname, scope, data-source strings, …) are immutable configuration
that never changes behaviour of the verified operations. -/
structure SentinelOneHECHandlerOptions where
  bufferSize : Nat
  disableAsync : Bool
  levelRef : Nat
  maxLevelRef : Option Nat
deriving DecidableEq, Repr

/-- `SentinelOneHECHandler` (handlers/sentinelone.go): attribute and group
prefixes, options, and the pointer identity of the shared
`sentinelOneHECHandlerState` (buffer + mutex), modelled as a cell index so
that sharing across clones is observable.  The `client`, `authToken` and
`ingestionURL` fields are immutable strings/objects never consulted by the
verified operations and are omitted. -/
structure SentinelOneHECHandler where
  attrs : List Attr
  groups : List String
  options : SentinelOneHECHandlerOptions
  stateRef : Nat
deriving DecidableEq, Repr

/-- `FileHandler` (leaf file sink).  Its attribute/group prefix lives in the
wrapped `slog.JSONHandler`; we record that prefix directly.  The writers are
shared immutable handles not consulted by the verified operations. -/
structure FileHandler where
  attrs : List Attr
  groups : List String
  options : LeafOptions
deriving DecidableEq, Repr

/-- `ConsoleHandler` (leaf console sink), modelled like `FileHandler`. -/
structure ConsoleHandler where
  attrs : List Attr
  groups : List String
  options : LeafOptions
deriving DecidableEq, Repr

/-- `SentinelOneHECHandler.Enabled` (sentinelone.go lines 592-599), verbatim:

    handlerLevel := h.options.Level.Level()
    if h.options.MaxLevel == nil { return level >= handlerLevel }
    return level >= handlerLevel && level <= handlerLevel

Note the second branch compares `level` to `handlerLevel` (the minimum) on
both sides; the configured maximum is never read. -/
def SentinelOneHECHandler.Enabled (heap : Heap) (h : SentinelOneHECHandler)
    (level : Int) : Bool :=
  let handlerLevel := heap h.options.levelRef
  match h.options.maxLevelRef with
  | none => decide (level ≥ handlerLevel)
  | some _ => decide (level ≥ handlerLevel) && decide (level ≤ handlerLevel)

/-- `FileHandler.Enabled` (part_003 lines 460-467): textually identical logic
to `SentinelOneHECHandler.Enabled`, including the max-branch comparing both
sides to the minimum. -/
def FileHandler.Enabled (heap : Heap) (h : FileHandler) (level : Int) : Bool :=
  let handlerLevel := heap h.options.levelRef
  match h.options.maxLevelRef with
  | none => decide (level ≥ handlerLevel)
  | some _ => decide (level ≥ handlerLevel) && decide (level ≤ handlerLevel)

/-- `ConsoleHandler.Enabled` (part_004 lines 287-294): textually identical
logic to `SentinelOneHECHandler.Enabled`. -/
def ConsoleHandler.Enabled (heap : Heap) (h : ConsoleHandler) (level : Int) :
    Bool :=
  let handlerLevel := heap h.options.levelRef
  match h.options.maxLevelRef with
  | none => decide (level ≥ handlerLevel)
  | some _ => decide (level ≥ handlerLevel) && decide (level ≤ handlerLevel)

/-- The spec's leaf enablement contract (spec section 8 / section 3
"LevelGate" invariant), stated from the spec's words: enablement holds iff
`min ≤ level` and, when a maximum is set, `level ≤ max`. -/
def leafEnabledSpec (heap : Heap) (levelRef : Nat) (maxLevelRef : Option Nat)
    (level : Int) : Bool :=
  decide (heap levelRef ≤ level) &&
    (match maxLevelRef with
     | none => true
     | some m => decide (level ≤ heap m))

/-- `DefaultSentinelOneHECLevelTranslator` (sentinelone.go lines 143-158) with
the concrete `slog` level constants: Error = 8, Warn = 4, Info = 0,
Debug = -4. -/
def DefaultSentinelOneHECLevelTranslator (l : Int) : String :=
  if l > 8 then "critical"
  else if l > 4 then "error"
  else if l > 0 then "warning"
  else if l > -4 then "info"
  else if l > -4 - 4 then "debug"
  else if l > -4 - 8 then "trace"
  else "finest"

/-- The spec's fixed severity band table (spec section 6), with the inclusive
upper bound of each band made explicit: level > error is "critical",
error >= level > warn is "error", warn >= level > info is "warning",
info >= level > debug is "info", debug >= level > debug-4 is "debug",
debug-4 >= level > debug-8 is "trace", and everything else is "finest". -/
def severityBandSpec (l : Int) : String :=
  if 8 < l then "critical"
  else if 4 < l ∧ l ≤ 8 then "error"
  else if 0 < l ∧ l ≤ 4 then "warning"
  else if -4 < l ∧ l ≤ 0 then "info"
  else if -8 < l ∧ l ≤ -4 then "debug"
  else if -12 < l ∧ l ≤ -8 then "trace"
  else "finest"

/-- C4: the default severity translator is a total, deterministic function on
every numeric level (it is a Lean function `Int → String`) and it matches the
spec's fixed band table exactly, including every band boundary. -/
theorem translator_matches_band_table (l : Int) :
    DefaultSentinelOneHECLevelTranslator l = severityBandSpec l := by
  unfold DefaultSentinelOneHECLevelTranslator severityBandSpec
  split_ifs <;> first | rfl | omega

/-- C1 (counter-evidence): the leaf sinks' `Enabled` diverges from the spec's
level-gate contract whenever a maximum level is set.  Concretely, with
min = Info (0) stored in cell 0 and max = Error (8) stored in cell 1, a
Warn (4) record satisfies the contract `min ≤ 4 ≤ max`, yet all three leaf
handlers return `false`, because their max branch compares the level to the
minimum on both sides. -/
theorem leaf_enabled_max_level_bug :
    let heap : Heap := fun i => if i = 0 then 0 else 8
    let opts : SentinelOneHECHandlerOptions :=
      { bufferSize := 0, disableAsync := false, levelRef := 0,
        maxLevelRef := some 1 }
    let s1 : SentinelOneHECHandler :=
      { attrs := [], groups := [], options := opts, stateRef := 0 }
    let leaf : LeafOptions := { levelRef := 0, maxLevelRef := some 1 }
    let f : FileHandler := { attrs := [], groups := [], options := leaf }
    let c : ConsoleHandler := { attrs := [], groups := [], options := leaf }
    SentinelOneHECHandler.Enabled heap s1 4 = false ∧
    FileHandler.Enabled heap f 4 = false ∧
    ConsoleHandler.Enabled heap c 4 = false ∧
    leafEnabledSpec heap 0 (some 1) 4 = true := by
  refine ⟨?_, ?_, ?_, ?_⟩ <;> rfl

/-- `SentinelOneHECHandler.handleError` (sentinelone.go lines 798-804): if an
error handler is configured, it may transform (or suppress, by returning
`nil`) the error; otherwise the error is returned unchanged.  The handler
function is modelled as `GoError → Option GoError`. -/
def SentinelOneHECHandler.handleError (eh : Option (GoError → Option GoError))
    (e : GoError) : Option GoError :=
  match eh with
  | none => some e
  | some f => f e

/-- `SentinelOneHECHandler.send` (sentinelone.go lines 816-860): one delivery
attempt.  The network/compression outcome is the oracle `attempt`; on success
`send` returns `nil`, and on every failure path it returns
`handleError` applied to the failure. -/
def SentinelOneHECHandler.send (eh : Option (GoError → Option GoError))
    (attempt : Option GoError) : Option GoError :=
  match attempt with
  | none => none
  | some e => SentinelOneHECHandler.handleError eh e

/-- Result of one `SentinelOneHECHandler.Handle` call, after the record has
been formatted into `recordBytes`:
`ret` is the error returned to the caller; `buf` is the shared buffer after
the call; `payload` is the batch snapshot cut during the call, if any;
`asyncSend` records whether delivery was handed to a detached task
(`go h.send(...)`); `sendResult` is the outcome of `send` on the cut payload
and is meaningful only when `payload` is `some`. -/
structure HandleResult where
  ret : Option GoError
  buf : List Nat
  payload : Option (List Nat)
  asyncSend : Bool
  sendResult : Option GoError
deriving DecidableEq, Repr

/-- `SentinelOneHECHandler.Handle` (sentinelone.go lines 716-747), the
buffer/batching part after formatting.  `recordBytes` is the formatted record
plus its newline separator.  Source logic, verbatim:

    if buf.Len() > 0 && (BufferSize == 0 || buf.Len()+recordBuf.Len() > BufferSize)
      { payload = copy(buf); buf.Reset() }
    buf.Write(recordBuf)
    if payload != nil { if DisableAsync { return send(payload) }; go send(payload) }
    return nil
-/
def SentinelOneHECHandler.Handle (bufferSize : Nat) (disableAsync : Bool)
    (eh : Option (GoError → Option GoError)) (buf recordBytes : List Nat)
    (attempt : Option GoError) : HandleResult :=
  if 0 < buf.length ∧
      (bufferSize = 0 ∨ bufferSize < buf.length + recordBytes.length) then
    if disableAsync then
      { ret := SentinelOneHECHandler.send eh attempt, buf := recordBytes,
        payload := some buf, asyncSend := false,
        sendResult := SentinelOneHECHandler.send eh attempt }
    else
      { ret := none, buf := recordBytes, payload := some buf,
        asyncSend := true,
        sendResult := SentinelOneHECHandler.send eh attempt }
  else
    { ret := none, buf := buf ++ recordBytes, payload := none,
      asyncSend := false, sendResult := none }

/-- Result of `SentinelOneHECHandler.Close`: `ret` is the returned error,
`buf` the shared buffer afterwards, `delivered` the final snapshot handed to
the synchronous `send` (if any), and `sendResult` the outcome of that `send`,
meaningful only when `delivered` is `some`. -/
structure CloseResult where
  ret : Option GoError
  buf : List Nat
  delivered : Option (List Nat)
  sendResult : Option GoError
deriving DecidableEq, Repr

/-- `SentinelOneHECHandler.Close` (sentinelone.go lines 573-590): under the
lock, if the buffer is empty return `nil` at once; otherwise snapshot-copy
the buffer, reset it, and deliver the snapshot synchronously, discarding the
result of `send` and returning `nil`. -/
def SentinelOneHECHandler.Close (eh : Option (GoError → Option GoError))
    (buf : List Nat) (attempt : Option GoError) : CloseResult :=
  if buf.length = 0 then
    { ret := none, buf := buf, delivered := none, sendResult := none }
  else
    { ret := none, buf := [], delivered := some buf,
      sendResult := SentinelOneHECHandler.send eh attempt }

/-- C2: with a positive threshold `T`, `Handle` cuts a batch exactly when the
shared buffer is non-empty and appending the new record would make the total
exceed `T`; when no batch is cut the record is appended to the buffer; when a
batch is cut, the snapshot is the whole previous buffer and the buffer
restarts with just the new record.  A record arriving at an empty buffer is
always appended whole — even when its size alone exceeds `T` — and is then
delivered later: the very next `Handle` cuts it as the payload, and `Close`
delivers it as the final snapshot. -/
theorem batching_cut_iff_would_exceed (T : Nat) (hT : 0 < T) (dA : Bool)
    (eh : Option (GoError → Option GoError)) (buf rec : List Nat)
    (attempt : Option GoError) :
    ((SentinelOneHECHandler.Handle T dA eh buf rec attempt).payload.isSome ↔
      buf ≠ [] ∧ T < buf.length + rec.length) ∧
    ((SentinelOneHECHandler.Handle T dA eh buf rec attempt).payload = none →
      (SentinelOneHECHandler.Handle T dA eh buf rec attempt).buf = buf ++ rec) ∧
    ((SentinelOneHECHandler.Handle T dA eh buf rec attempt).payload.isSome →
      (SentinelOneHECHandler.Handle T dA eh buf rec attempt).payload = some buf ∧
      (SentinelOneHECHandler.Handle T dA eh buf rec attempt).buf = rec) ∧
    (buf = [] →
      (SentinelOneHECHandler.Handle T dA eh buf rec attempt).payload = none ∧
      (SentinelOneHECHandler.Handle T dA eh buf rec attempt).buf = rec) ∧
    (T < rec.length →
      (∀ rec2 attempt2, (SentinelOneHECHandler.Handle T dA eh rec rec2
          attempt2).payload = some rec) ∧
      (SentinelOneHECHandler.Close eh rec attempt).delivered = some rec) := by
  have hcut : ∀ buf2 rec2 att2,
      (0 < buf2.length ∧ (T = 0 ∨ T < buf2.length + rec2.length)) →
      (SentinelOneHECHandler.Handle T dA eh buf2 rec2 att2).payload =
        some buf2 ∧
      (SentinelOneHECHandler.Handle T dA eh buf2 rec2 att2).buf = rec2 := by
    intro buf2 rec2 att2 hc
    unfold SentinelOneHECHandler.Handle
    rw [if_pos hc]
    cases dA <;> simp
  have hnocut : ∀ buf2 rec2 att2,
      ¬(0 < buf2.length ∧ (T = 0 ∨ T < buf2.length + rec2.length)) →
      (SentinelOneHECHandler.Handle T dA eh buf2 rec2 att2).payload = none ∧
      (SentinelOneHECHandler.Handle T dA eh buf2 rec2 att2).buf =
        buf2 ++ rec2 := by
    intro buf2 rec2 att2 hc
    unfold SentinelOneHECHandler.Handle
    rw [if_neg hc]
    exact ⟨rfl, rfl⟩
  refine ⟨?_, ?_, ?_, ?_, ?_⟩
  · constructor
    · intro hsome
      by_cases hc : 0 < buf.length ∧ (T = 0 ∨ T < buf.length + rec.length)
      · exact ⟨List.length_pos.mp hc.1, by rcases hc.2 with h0 | h1 <;> omega⟩
      · rw [(hnocut buf rec attempt hc).1] at hsome
        simp at hsome
    · rintro ⟨hne, hex⟩
      rw [(hcut buf rec attempt ⟨List.length_pos.mpr hne, Or.inr hex⟩).1]
      rfl
  · intro hnone
    by_cases hc : 0 < buf.length ∧ (T = 0 ∨ T < buf.length + rec.length)
    · rw [(hcut buf rec attempt hc).1] at hnone
      simp at hnone
    · exact (hnocut buf rec attempt hc).2
  · intro hsome
    by_cases hc : 0 < buf.length ∧ (T = 0 ∨ T < buf.length + rec.length)
    · exact hcut buf rec attempt hc
    · rw [(hnocut buf rec attempt hc).1] at hsome
      simp at hsome
  · intro hbuf
    have hc : ¬(0 < buf.length ∧ (T = 0 ∨ T < buf.length + rec.length)) := by
      rw [hbuf]
      simp
    refine ⟨(hnocut buf rec attempt hc).1, ?_⟩
    rw [(hnocut buf rec attempt hc).2, hbuf]
    rfl
  · intro hrec
    constructor
    · intro rec2 att2
      exact (hcut rec rec2 att2 ⟨by omega, Or.inr (by omega)⟩).1
    · unfold SentinelOneHECHandler.Close
      rw [if_neg (by omega : ¬rec.length = 0)]

/-- C2 witness: threshold 2, a 2-byte buffer and a 1-byte record make the
total 3 > 2, so the batch is cut and equals the previous buffer contents. -/
theorem batching_cut_iff_would_exceed_witness :
    0 < 2 ∧
    (SentinelOneHECHandler.Handle 2 true none [0, 0] [1] none).payload =
      some [0, 0] := by
  have h := batching_cut_iff_would_exceed 2 (by decide) true none [0, 0] [1]
    none
  exact ⟨by decide, (h.2.2.1 (h.1.mpr ⟨by decide, by decide⟩)).1⟩

/-- C3: `Close` performs exactly one final synchronous delivery attempt iff
the shared buffer is non-empty at close time: when non-empty, the whole
buffer is snapshotted as the delivered payload and the buffer is cleared;
when empty, `Close` delivers nothing and leaves everything unchanged (a
no-op returning `nil`). -/
theorem close_final_flush_iff_nonempty (eh : Option (GoError → Option GoError))
    (buf : List Nat) (attempt : Option GoError) :
    ((SentinelOneHECHandler.Close eh buf attempt).delivered.isSome ↔
      buf ≠ []) ∧
    (buf ≠ [] → SentinelOneHECHandler.Close eh buf attempt =
      { ret := none, buf := [], delivered := some buf,
        sendResult := SentinelOneHECHandler.send eh attempt }) ∧
    (buf = [] → SentinelOneHECHandler.Close eh buf attempt =
      { ret := none, buf := buf, delivered := none, sendResult := none }) := by
  unfold SentinelOneHECHandler.Close
  by_cases hlen : buf.length = 0
  · rw [if_pos hlen]
    have hnil : buf = [] := List.length_eq_zero.mp hlen
    refine ⟨?_, ?_, ?_⟩
    · simp [hnil]
    · intro hne
      exact absurd hnil hne
    · intro _
      rfl
  · rw [if_neg hlen]
    have hne : buf ≠ [] := by
      intro hnil
      exact hlen (by rw [hnil]; rfl)
    refine ⟨?_, ?_, ?_⟩
    · simp [hne]
    · intro _
      rfl
    · intro hnil
      exact absurd hnil hne

/-- C3 witness: closing with the non-empty buffer `[5]` delivers exactly that
snapshot. -/
theorem close_final_flush_iff_nonempty_witness :
    (SentinelOneHECHandler.Close none [5] none).delivered = some [5] := by
  have h := close_final_flush_iff_nonempty none [5] none
  rw [h.2.1 (by decide)]

/-- C9: when `Handle` cuts a batch, the async/sync policy decides how the
delivery error surfaces.  With async enabled (`DisableAsync = false`) the
call returns `nil` regardless of the delivery outcome, the payload goes to a
detached task, and the delivery result flows only through `send` — which on
failure is exactly the pluggable error handler's output.  With async disabled
the call returns the delivery result itself, i.e. the error after the error
handler (when configured) has had the chance to transform it. -/
theorem handle_cut_error_routing (T : Nat) (dA : Bool)
    (eh : Option (GoError → Option GoError)) (buf rec : List Nat)
    (attempt : Option GoError)
    (hcut : (SentinelOneHECHandler.Handle T dA eh buf rec
      attempt).payload.isSome) :
    (dA = false →
      (SentinelOneHECHandler.Handle T dA eh buf rec attempt).ret = none ∧
      (SentinelOneHECHandler.Handle T dA eh buf rec attempt).asyncSend =
        true ∧
      (SentinelOneHECHandler.Handle T dA eh buf rec attempt).sendResult =
        SentinelOneHECHandler.send eh attempt) ∧
    (dA = true →
      (SentinelOneHECHandler.Handle T dA eh buf rec attempt).ret =
        SentinelOneHECHandler.send eh attempt ∧
      (SentinelOneHECHandler.Handle T dA eh buf rec attempt).asyncSend =
        false) ∧
    (∀ e, SentinelOneHECHandler.send eh (some e) =
      SentinelOneHECHandler.handleError eh e) := by
  by_cases hc : 0 < buf.length ∧ (T = 0 ∨ T < buf.length + rec.length)
  · unfold SentinelOneHECHandler.Handle
    rw [if_pos hc]
    cases dA <;> simp <;> intro e <;> rfl
  · unfold SentinelOneHECHandler.Handle at hcut
    rw [if_neg hc] at hcut
    simp at hcut

/-- C9 witness: a cut in synchronous mode returns the delivery error (here no
error handler is configured, so the raw failure comes back). -/
theorem handle_cut_error_routing_witness :
    (SentinelOneHECHandler.Handle 1 true none [0] [1]
      (some "transport failure")).ret = some "transport failure" := by
  have h := handle_cut_error_routing 1 true none [0] [1]
    (some "transport failure") (by decide)
  rw [(h.2.1 rfl).1]
  rfl

/-- C10: `Close` returns `nil` in every state of the buffer: `send`'s result
on the final synchronous delivery is discarded, so a delivery failure is
observable only through the error handler chain inside `send` (when one is
configured), never through `Close`'s return value. -/
theorem close_always_returns_nil (eh : Option (GoError → Option GoError))
    (buf : List Nat) (attempt : Option GoError) :
    (SentinelOneHECHandler.Close eh buf attempt).ret = none ∧
    (buf ≠ [] → (SentinelOneHECHandler.Close eh buf attempt).sendResult =
      SentinelOneHECHandler.send eh attempt) ∧
    (∀ e, buf ≠ [] →
      (SentinelOneHECHandler.Close eh buf (some e)).sendResult =
        SentinelOneHECHandler.handleError eh e) := by
  unfold SentinelOneHECHandler.Close
  by_cases hlen : buf.length = 0
  · have hnil : buf = [] := List.length_eq_zero.mp hlen
    rw [if_pos hlen]
    refine ⟨rfl, ?_, ?_⟩
    · intro hne
      exact absurd hnil hne
    · intro e hne
      exact absurd hnil hne
  · rw [if_neg hlen]
    refine ⟨rfl, fun _ => rfl, fun e _ => ?_⟩
    rw [if_neg hlen]
    rfl

/-- C10 witness: a failing final delivery still leaves `Close` returning
`nil`. -/
theorem close_always_returns_nil_witness :
    (SentinelOneHECHandler.Close none [7] (some "status 500")).ret = none :=
  (close_always_returns_nil none [7] (some "status 500")).1

/-- The closed set of sink implementations this repository defines: the three
leaf handlers, the always-disabled discard handler, and the fan-out composer
over an ordered list of child sinks (`FanoutHandlerOptions.Handlers`). -/
inductive Handler where
  | sentinelone (h : SentinelOneHECHandler)
  | file (h : FileHandler)
  | console (h : ConsoleHandler)
  | discard
  | fanout (children : List Handler)

mutual

/-- `Enabled` dispatched over the sink set: each leaf case is that handler's
`Enabled`; `discard` is `DiscardHandler.Enabled` (part_005 lines 55-58,
always `false`); `fanout` is `FanoutHandler.Enabled` (fanout.go lines 68-76),
which loops over the children and returns `true` on the first enabled one. -/
def Handler.Enabled (heap : Heap) (l : Int) : Handler → Bool
  | .sentinelone h => SentinelOneHECHandler.Enabled heap h l
  | .file h => FileHandler.Enabled heap h l
  | .console h => ConsoleHandler.Enabled heap h l
  | .discard => false
  | .fanout cs => Handler.anyChildEnabled heap l cs

/-- The loop of `FanoutHandler.Enabled`: `for _, handler := range Handlers
{ if handler.Enabled(ctx, level) { return true } }; return false`. -/
def Handler.anyChildEnabled (heap : Heap) (l : Int) : List Handler → Bool
  | [] => false
  | c :: rest => Handler.Enabled heap l c || Handler.anyChildEnabled heap l rest

end

/-- C5: the fan-out is enabled for a level iff at least one of its children
is; with no children it is disabled, and with only always-disabled discard
children it is disabled. -/
theorem fanout_enabled_iff_any_child (heap : Heap) (l : Int)
    (cs : List Handler) :
    (Handler.Enabled heap l (.fanout cs) = true ↔
      ∃ c ∈ cs, Handler.Enabled heap l c = true) ∧
    Handler.Enabled heap l (.fanout []) = false ∧
    ((∀ c ∈ cs, c = Handler.discard) →
      Handler.Enabled heap l (.fanout cs) = false) := by
  have hany : ∀ ds : List Handler, Handler.anyChildEnabled heap l ds =
      ds.any (fun c => Handler.Enabled heap l c) := by
    intro ds
    induction ds with
    | nil => rfl
    | cons c rest ih =>
      rw [Handler.anyChildEnabled, ih, List.any_cons]
  refine ⟨?_, ?_, ?_⟩
  · rw [Handler.Enabled, hany, List.any_eq_true]
  · rw [Handler.Enabled, hany]
    rfl
  · intro hall
    rw [Handler.Enabled, hany]
    rw [List.any_eq_false]
    intro c hc
    rw [hall c hc]
    simp [Handler.Enabled]

/-- C5 witness: a fan-out over a single discard child is disabled. -/
theorem fanout_enabled_iff_any_child_witness :
    Handler.Enabled (fun _ => 0) 0 (.fanout [Handler.discard]) = false := by
  have h := fanout_enabled_iff_any_child (fun _ => 0) 0 [Handler.discard]
  exact h.2.2 (fun c hc => by simpa using hc)

/-- A Go panic value as seen by `recover()`: either an `error` value or some
other value, kept as its formatted representation. -/
inductive PanicVal where
  | errVal (e : GoError)
  | otherVal (text : String)
deriving DecidableEq

/-- Outcome of invoking one child handler's `Handle`: normal return of `nil`,
normal return of an error, or a panic. -/
inductive GoResult where
  | ok
  | err (e : GoError)
  | panics (v : PanicVal)
deriving DecidableEq

/-- The error `try`'s deferred `recover()` produces from a panic value
(util.go lines 8-14): an `error` value is used as-is, anything else becomes
`fmt.Errorf("unexpected error: %+v", r)`. -/
def panicToError : PanicVal → GoError
  | .errVal e => e
  | .otherVal text => "unexpected error: " ++ text

/-- `try` (handlers/util.go lines 6-19), named `tryCall` here because `try`
is reserved in Lean: runs the callback and recovers from any panic, turning
it into an ordinary error; a normal return passes the callback's error (or
`nil`) through. -/
def tryCall : GoResult → Option GoError
  | .ok => none
  | .err e => some e
  | .panics v => some (panicToError v)

/-- `FanoutHandler.Handle` (fanout.go lines 89-102): walk the children in
registration order; skip a child not enabled for the record's level; invoke
an enabled child with `r.Clone()` inside `try`; collect every non-`nil`
result.  `errors.Join` of the collected list is the returned combined error,
and it is `nil` exactly when the list is empty.  The outcome of each child's
own `Handle` (network, file, panic, …) is external behaviour, supplied by the
oracle `invoke`. -/
def FanoutHandler.Handle (heap : Heap) (invoke : Handler → Record → GoResult)
    (r : Record) : List Handler → List GoError
  | [] => []
  | c :: rest =>
    if Handler.Enabled heap r.level c then
      match tryCall (invoke c r.clone) with
      | some e => e :: FanoutHandler.Handle heap invoke r rest
      | none => FanoutHandler.Handle heap invoke r rest
    else FanoutHandler.Handle heap invoke r rest

/-- C6: `FanoutHandler.Handle` visits children in registration order, skips
the ones not enabled for the record's level, invokes each enabled child with
a clone of the record under `try` (so a panic becomes an error instead of
propagating), and the combined error is `nil` iff every attempted child
succeeded.  The first conjunct captures order, skipping and cloning at once:
the collected errors are exactly the non-`nil` `try` results of the enabled
children, in order. -/
theorem fanout_handle_collects_errors (heap : Heap)
    (invoke : Handler → Record → GoResult) (r : Record) (cs : List Handler) :
    (FanoutHandler.Handle heap invoke r cs =
      (cs.filter (fun c => Handler.Enabled heap r.level c)).filterMap
        (fun c => tryCall (invoke c r.clone))) ∧
    (FanoutHandler.Handle heap invoke r cs = [] ↔
      ∀ c ∈ cs, Handler.Enabled heap r.level c = true →
        tryCall (invoke c r.clone) = none) ∧
    (∀ v, tryCall (GoResult.panics v) = some (panicToError v)) := by
  have hmain : FanoutHandler.Handle heap invoke r cs =
      (cs.filter (fun c => Handler.Enabled heap r.level c)).filterMap
        (fun c => tryCall (invoke c r.clone)) := by
    induction cs with
    | nil => rfl
    | cons c rest ih =>
      rw [FanoutHandler.Handle]
      by_cases henab : Handler.Enabled heap r.level c
      · rw [if_pos henab, List.filter_cons_of_pos (by simpa using henab),
          List.filterMap_cons]
        cases htry : tryCall (invoke c r.clone) <;> simp [htry, ih]
      · rw [if_neg henab, List.filter_cons_of_neg (by simpa using henab), ih]
  refine ⟨hmain, ?_, fun v => rfl⟩
  rw [hmain, List.filterMap_eq_nil_iff]
  constructor
  · intro hall c hc henab
    exact hall c (List.mem_filter.mpr ⟨hc, henab⟩)
  · intro hall c hc
    have := List.mem_filter.mp hc
    exact hall c this.1 this.2

/-- C6 witness: a fan-out over one discard child (not enabled, hence never
attempted) collects no errors, so the combined error is `nil`. -/
theorem fanout_handle_collects_errors_witness :
    FanoutHandler.Handle (fun _ => 0) (fun _ _ => GoResult.ok)
      { time := 0, level := 0, message := "m", attrs := [] }
      [Handler.discard] = [] := by
  have h := fanout_handle_collects_errors (fun _ => 0)
    (fun _ _ => GoResult.ok)
    { time := 0, level := 0, message := "m", attrs := [] } [Handler.discard]
  exact h.2.1.mpr (fun c hc henab => rfl)

/-- `SentinelOneHECHandler.clone` (sentinelone.go lines 785-796): copy every
field — the attribute and group slices by value (`slices.Clone`), the options
struct by value (which copies the `Level`/`MaxLevel` *pointers*, so the level
cells stay shared), and the `state` pointer (so the buffer and mutex stay
shared). -/
def SentinelOneHECHandler.clone (h : SentinelOneHECHandler) :
    SentinelOneHECHandler :=
  { attrs := h.attrs, groups := h.groups, options := h.options,
    stateRef := h.stateRef }

/-- `SentinelOneHECHandler.WithAttrs` (sentinelone.go lines 760-769): build a
clone whose attribute prefix is a freshly allocated `h.attrs ++ attrs`. -/
def SentinelOneHECHandler.WithAttrs (h : SentinelOneHECHandler)
    (attrs : List Attr) : SentinelOneHECHandler :=
  { h.clone with attrs := h.attrs ++ attrs }

/-- `SentinelOneHECHandler.WithGroup` (sentinelone.go lines 771-783): an empty
name returns the receiver itself; otherwise build a clone whose group list is
a freshly allocated `h.groups ++ [name]`. -/
def SentinelOneHECHandler.WithGroup (h : SentinelOneHECHandler)
    (name : String) : SentinelOneHECHandler :=
  if name.length = 0 then h
  else { h.clone with groups := h.groups ++ [name] }

/-- `FileHandler.clone` (part_003 lines 517-525): copies the handler, sharing
the writers, the inner `slog` handler and the options (hence the level
cells). -/
def FileHandler.clone (h : FileHandler) : FileHandler :=
  { attrs := h.attrs, groups := h.groups, options := h.options }

/-- `FileHandler.WithAttrs` (part_003 lines 498-504): a clone whose inner
`slog` handler carries the extended attribute prefix. -/
def FileHandler.WithAttrs (h : FileHandler) (attrs : List Attr) :
    FileHandler :=
  { h.clone with attrs := h.attrs ++ attrs }

/-- `ConsoleHandler.clone` (part_004 lines 344-350): copies the handler,
sharing the inner `slog` handler and the options (hence the level cells). -/
def ConsoleHandler.clone (h : ConsoleHandler) : ConsoleHandler :=
  { attrs := h.attrs, groups := h.groups, options := h.options }

/-- `ConsoleHandler.WithAttrs` (part_004 lines 325-331): a clone whose inner
`slog` handler carries the extended attribute prefix. -/
def ConsoleHandler.WithAttrs (h : ConsoleHandler) (attrs : List Attr) :
    ConsoleHandler :=
  { h.clone with attrs := h.attrs ++ attrs }

mutual

/-- `WithAttrs` dispatched over the sink set.  The fan-out case is
`FanoutHandler.WithAttrs` (fanout.go lines 140-149): build a new child list
by extending every child, and return a new composer over it; the original
composer and its children are left as they were.  `discard`'s `WithAttrs`
delegates to `slog.DiscardHandler`, which still discards everything. -/
def Handler.WithAttrs : Handler → List Attr → Handler
  | .sentinelone h, as => .sentinelone (h.WithAttrs as)
  | .file h, as => .file (h.WithAttrs as)
  | .console h, as => .console (h.WithAttrs as)
  | .discard, _ => .discard
  | .fanout cs, as => .fanout (Handler.withAttrsAll cs as)

/-- The loop of `FanoutHandler.WithAttrs`: `handlers[i] =
handler.WithAttrs(attrs)` for each child, in order. -/
def Handler.withAttrsAll : List Handler → List Attr → List Handler
  | [], _ => []
  | c :: rest, as => Handler.WithAttrs c as :: Handler.withAttrsAll rest as

end

/-- C7: attribute/group extension is a pure clone operation.  `WithAttrs`
returns a new sink whose attribute prefix is the receiver's prefix followed
by the new attributes, with the group prefix, options and shared-state
pointer unchanged; `WithGroup` appends one group name; the fan-out returns a
new composer over the pointwise-extended children.  The receiver is passed by
value and never modified, and the only mutable state (`Heap` cells and the
shared buffer, threaded explicitly through `Enabled`/`Handle`) is untouched
by these operations, so handling records on the clone cannot change the
original sink's attribute prefix, group prefix or child set. -/
theorem withattrs_withgroup_pure_clone (h : SentinelOneHECHandler)
    (as : List Attr) (g : String) (cs : List Handler) (hg : g ≠ "") :
    SentinelOneHECHandler.WithAttrs h as =
      { attrs := h.attrs ++ as, groups := h.groups, options := h.options,
        stateRef := h.stateRef } ∧
    SentinelOneHECHandler.WithGroup h g =
      { attrs := h.attrs, groups := h.groups ++ [g], options := h.options,
        stateRef := h.stateRef } ∧
    Handler.WithAttrs (.fanout cs) as =
      .fanout (cs.map (fun c => Handler.WithAttrs c as)) := by
  have hmap : ∀ ds : List Handler, Handler.withAttrsAll ds as =
      ds.map (fun c => Handler.WithAttrs c as) := by
    intro ds
    induction ds with
    | nil => rfl
    | cons c rest ih => rw [Handler.withAttrsAll, ih, List.map_cons]
  refine ⟨rfl, ?_, ?_⟩
  · have hlen : ¬g.length = 0 := by
      intro h0
      apply hg
      obtain ⟨data⟩ := g
      rw [show (String.mk data).length = data.length from rfl] at h0
      rw [List.length_eq_zero.mp h0]
    rw [SentinelOneHECHandler.WithGroup, if_neg hlen]
    rfl
  · rw [Handler.WithAttrs, hmap]

/-- C7 witness: extending a concrete handler with a group name produces the
clone with that group appended, sharing options and state. -/
theorem withattrs_withgroup_pure_clone_witness :
    SentinelOneHECHandler.WithGroup
      { attrs := [], groups := ["app"],
        options := { bufferSize := 0, disableAsync := false, levelRef := 0,
                     maxLevelRef := none }, stateRef := 3 } "db" =
      { attrs := [], groups := ["app", "db"],
        options := { bufferSize := 0, disableAsync := false, levelRef := 0,
                     maxLevelRef := none }, stateRef := 3 } := by
  have h := withattrs_withgroup_pure_clone
    { attrs := [], groups := ["app"],
      options := { bufferSize := 0, disableAsync := false, levelRef := 0,
                   maxLevelRef := none }, stateRef := 3 } [] "db" []
    (by decide)
  rw [h.2.1]
  rfl

/-- `SentinelOneHECHandler.GetLevelVar` (sentinelone.go lines 601-604):
returns the pointer to the handler's minimum-level variable. -/
def SentinelOneHECHandler.GetLevelVar (h : SentinelOneHECHandler) : Nat :=
  h.options.levelRef

/-- `ConsoleHandler.GetLevelVar` (part_004 lines 296-299): returns the
pointer to the handler's minimum-level variable. -/
def ConsoleHandler.GetLevelVar (h : ConsoleHandler) : Nat :=
  h.options.levelRef

/-- C8: the level gate is shared by reference across clones.  A clone
produced by `WithAttrs` (which goes through `clone`) carries the same
`LevelVar` pointer as the original, so setting a new minimum level through
the original's `GetLevelVar` cell changes the clone's `Enabled` results
identically, and setting it through the clone's cell changes the original's
results identically — no sink is rebuilt.  The same holds for the console
handler's `clone`. -/
theorem level_gate_shared_across_clones (heap : Heap)
    (h : SentinelOneHECHandler) (c : ConsoleHandler) (as as2 : List Attr)
    (v : Int) :
    (SentinelOneHECHandler.WithAttrs h as).GetLevelVar = h.GetLevelVar ∧
    (∀ L, SentinelOneHECHandler.Enabled (heapSet heap h.GetLevelVar v)
        (SentinelOneHECHandler.WithAttrs h as) L =
      SentinelOneHECHandler.Enabled (heapSet heap h.GetLevelVar v) h L) ∧
    (∀ L, SentinelOneHECHandler.Enabled
        (heapSet heap (SentinelOneHECHandler.WithAttrs h as).GetLevelVar v)
        h L =
      SentinelOneHECHandler.Enabled
        (heapSet heap (SentinelOneHECHandler.WithAttrs h as).GetLevelVar v)
        (SentinelOneHECHandler.WithAttrs h as) L) ∧
    (ConsoleHandler.WithAttrs c as2).GetLevelVar = c.GetLevelVar ∧
    (∀ L, ConsoleHandler.Enabled (heapSet heap c.GetLevelVar v)
        (ConsoleHandler.WithAttrs c as2) L =
      ConsoleHandler.Enabled (heapSet heap c.GetLevelVar v) c L) :=
  ⟨rfl, fun _ => rfl, fun _ => rfl, rfl, fun _ => rfl⟩
